import Mathlib

/-!
Verification of the IronProof VBT signal-processing pipeline.

Shallow embedding of the TypeScript sources:
  * `src/src/utils/math.ts` — frame decoding, gravity compensation,
    Butterworth low-pass filter (20 Hz variant), velocity integrator;
  * `src/unnamed/part_002` — the same module's 200 Hz filter variant;
  * `src/unnamed/part_000` — the App component's velocity-drop computation;
  * `src/unnamed/part_001` — the useBluetooth hook's peak-velocity tracking;
  * `src/src/store/useWorkoutStore.ts` — the workout record store.

JavaScript numbers are modelled as exact rationals (ℚ); byte buffers as
lists of naturals read modulo 256 (Uint8Array semantics).
-/

/-- One byte of a `Uint8Array`: out-of-range reads yield 0 (here: `getD`),
stored values are reduced mod 256. -/
def byteAt (buffer : List Nat) (i : Nat) : Nat :=
  buffer.getD i 0 % 256

/-- `DataView.getInt16(i, true)`: little-endian signed 16-bit read at
offset `i`. -/
def getInt16 (buffer : List Nat) (i : Nat) : Int :=
  let u := byteAt buffer i + 256 * byteAt buffer (i + 1)
  if u < 32768 then (u : Int) else (u : Int) - 65536

/-- The `{x, y, z}` acceleration record returned by `parseAcceleration`
(and consumed by `getLinearAccelerationBaseZ`). -/
structure AccelSample where
  x : ℚ
  y : ℚ
  z : ℚ
deriving DecidableEq

/-- The `{q0, q1, q2, q3}` quaternion record returned by `parseQuaternion`. -/
structure Quat where
  q0 : ℚ
  q1 : ℚ
  q2 : ℚ
  q3 : ℚ
deriving DecidableEq

/-- `parseAcceleration` from `src/src/utils/math.ts` lines 12–21: rejects
buffers shorter than 11 bytes, or with header byte ≠ 0x55, or type byte
≠ 0x51; otherwise reads the three axes as little-endian int16 at offsets
2, 4, 6 and scales by `(raw / 32768) * 16 * 9.81`. The full-scale factor
16 is hard-coded; the function takes no range parameter. -/
def parseAcceleration (buffer : List Nat) : Option AccelSample :=
  if buffer.length < 11 ∨ byteAt buffer 0 ≠ 0x55 ∨ byteAt buffer 1 ≠ 0x51 then
    none
  else
    some { x := (getInt16 buffer 2 : ℚ) / 32768 * 16 * 9.81,
           y := (getInt16 buffer 4 : ℚ) / 32768 * 16 * 9.81,
           z := (getInt16 buffer 6 : ℚ) / 32768 * 16 * 9.81 }

/-- `parseQuaternion` from `src/src/utils/math.ts` lines 23–32. -/
def parseQuaternion (buffer : List Nat) : Option Quat :=
  if buffer.length < 11 ∨ byteAt buffer 0 ≠ 0x55 ∨ byteAt buffer 1 ≠ 0x59 then
    none
  else
    some { q0 := (getInt16 buffer 2 : ℚ) / 32768,
           q1 := (getInt16 buffer 4 : ℚ) / 32768,
           q2 := (getInt16 buffer 6 : ℚ) / 32768,
           q3 := (getInt16 buffer 8 : ℚ) / 32768 }

/-- `getLinearAccelerationBaseZ` from `src/src/utils/math.ts` lines 36–40:
subtracts the quaternion-derived vertical gravity component from the raw
z acceleration. -/
def getLinearAccelerationBaseZ (rawAccel : AccelSample) (q : Quat) : ℚ :=
  let g_z := q.q0 * q.q0 - q.q1 * q.q1 - q.q2 * q.q2 + q.q3 * q.q3
  rawAccel.z - g_z * 9.81

/-- A structurally valid acceleration frame whose x-axis raw value is
0x1000 = 4096 (bytes 0x00 low, 0x10 high at offsets 2–3); trailing byte is
the advisory checksum. The caller in `src/unnamed/part_001` decodes such
frames via `parseAcceleration(buffer, 2)`, intending a 2 g full scale. -/
def c5Buffer : List Nat := [0x55, 0x51, 0x00, 0x10, 0, 0, 0, 0, 0, 0, 0xB6]

/-- The `xv`/`yv` history of a `ButterworthLowPass` instance: five input
slots and five output slots (index 4 newest). -/
structure ButterworthLowPass where
  xv0 : ℚ
  xv1 : ℚ
  xv2 : ℚ
  xv3 : ℚ
  xv4 : ℚ
  yv0 : ℚ
  yv1 : ℚ
  yv2 : ℚ
  yv3 : ℚ
  yv4 : ℚ
deriving DecidableEq

/-- A freshly constructed `ButterworthLowPass`: both history arrays are
all zeros. -/
def ButterworthLowPass.init : ButterworthLowPass :=
  ⟨0, 0, 0, 0, 0, 0, 0, 0, 0, 0⟩

/-- `ButterworthLowPass.filter` from `src/src/utils/math.ts` lines 48–60
(the 20 Hz sample-rate / 5 Hz cutoff coefficient set): shifts both
histories, stores `val / 3.4142` as the newest input, computes the new
output from the 1-4-6-4-1 input combination plus the feedback terms, and
returns it. Modelled as state in, (state, returned value) out. -/
def ButterworthLowPass.filter (s : ButterworthLowPass) (val : ℚ) :
    ButterworthLowPass × ℚ :=
  let x0 := s.xv1
  let x1 := s.xv2
  let x2 := s.xv3
  let x3 := s.xv4
  let x4 := val / 3.4142
  let y0 := s.yv1
  let y1 := s.yv2
  let y2 := s.yv3
  let y3 := s.yv4
  let y4 := (x0 + x4) + 4 * (x1 + x3) + 6 * x2
      + (-0.0000000000 * y0) + (0.0000000000 * y1)
      + (-0.1715728753 * y2) + (0.0000000000 * y3)
  (⟨x0, x1, x2, x3, x4, y0, y1, y2, y3, y4⟩, y4)

/-- `ButterworthLowPass.filter` from `src/unnamed/part_002` lines 48–60
(the 200 Hz sample-rate / 10 Hz cutoff coefficient set). -/
def butterworthFilter200 (s : ButterworthLowPass) (val : ℚ) :
    ButterworthLowPass × ℚ :=
  let x0 := s.xv1
  let x1 := s.xv2
  let x2 := s.xv3
  let x3 := s.xv4
  let x4 := val / 1445.41
  let y0 := s.yv1
  let y1 := s.yv2
  let y2 := s.yv3
  let y3 := s.yv4
  let y4 := (x0 + x4) + 4 * (x1 + x3) + 6 * x2
      + (-0.4078516104 * y0) + (1.9839443216 * y1)
      + (-3.6705606670 * y2) + (3.0858167732 * y3)
  (⟨x0, x1, x2, x3, x4, y0, y1, y2, y3, y4⟩, y4)

/-- Steady-state (DC) output of the 20 Hz filter under constant input `c`:
`16 · (c/GAIN) / (1 − Σ feedback)` with GAIN = 3.4142 and
Σ feedback = −0.1715728753. -/
def dcOut20 (c : ℚ) : ℚ :=
  16 * (c / 3.4142) / (1 + 0.1715728753)

/-- The unique state fixed by the 20 Hz filter step under constant
input `c`. -/
def dcState20 (c : ℚ) : ButterworthLowPass :=
  ⟨c / 3.4142, c / 3.4142, c / 3.4142, c / 3.4142, c / 3.4142,
   dcOut20 c, dcOut20 c, dcOut20 c, dcOut20 c, dcOut20 c⟩

/-- Steady-state (DC) output of the 200 Hz filter under constant input
`c`: GAIN = 1445.41 and Σ feedback = 0.9913488174. -/
def dcOut200 (c : ℚ) : ℚ :=
  16 * (c / 1445.41) / (1 - 0.9913488174)

/-- The unique state fixed by the 200 Hz filter step under constant
input `c`. -/
def dcState200 (c : ℚ) : ButterworthLowPass :=
  ⟨c / 1445.41, c / 1445.41, c / 1445.41, c / 1445.41, c / 1445.41,
   dcOut200 c, dcOut200 c, dcOut200 c, dcOut200 c, dcOut200 c⟩

/-- The ZUPT/integration fields of a `VelocityIntegrator` from
`src/src/utils/math.ts`: current velocity, previous filtered acceleration,
and the zero-velocity run counter. -/
structure IntState where
  currentVelocity : ℚ
  prevAccel : ℚ
  zuptCounter : Nat
deriving DecidableEq

/-- Initial values of those fields in a fresh `VelocityIntegrator`. -/
def IntState.init : IntState := ⟨0, 0, 0⟩

/-- `zuptThreshold = 0.15` m/s², `src/src/utils/math.ts` line 70. -/
def zuptThreshold : ℚ := 0.15

/-- `zuptMaxFrames = 4` (0.2 s at 20 Hz), `src/src/utils/math.ts` line 72. -/
def zuptMaxFrames : Nat := 4

/-- `dt = 0.050` (50 ms step at 20 Hz), `src/src/utils/math.ts` line 67. -/
def dt : ℚ := 0.050

/-- The zero-run counter after one `update` call: incremented when the
filtered acceleration is inside the ZUPT threshold, reset to 0 otherwise
(`src/src/utils/math.ts` lines 82–89). -/
def zuptCounterStep (filteredA : ℚ) (c : Nat) : Nat :=
  if |filteredA| < zuptThreshold then c + 1 else 0

/-- Lines 82–97 of `VelocityIntegrator.update`: ZUPT check, conditional
trapezoidal integration, and storing the filtered acceleration — acting
on the post-filter state (`filteredA` is the filter output). -/
def zuptStep (filteredA : ℚ) (s : IntState) : IntState :=
  let newCounter := zuptCounterStep filteredA s.zuptCounter
  let lockedV : ℚ := if zuptMaxFrames ≤ newCounter then 0 else s.currentVelocity
  { currentVelocity :=
      if newCounter < zuptMaxFrames then
        lockedV + (filteredA + s.prevAccel) / 2 * dt
      else lockedV,
    prevAccel := filteredA,
    zuptCounter := newCounter }

/-- Feeding a list of filtered acceleration samples through `zuptStep`,
oldest first. -/
def processRun (L : List ℚ) (s : IntState) : IntState :=
  L.foldl (fun t a => zuptStep a t) s

/-- `n` `zuptStep`s of the constant filtered acceleration `a`, starting
from a fresh integrator state. -/
def zuptIter (a : ℚ) : Nat → IntState
  | 0 => IntState.init
  | n + 1 => zuptStep a (zuptIter a n)

/-- Full `VelocityIntegrator` state from `src/src/utils/math.ts` lines
64–72: the ZUPT/integration fields plus the owned filter instance. -/
structure VelocityIntegrator where
  currentVelocity : ℚ
  prevAccel : ℚ
  filt : ButterworthLowPass
  zuptCounter : Nat
deriving DecidableEq

/-- A freshly constructed `VelocityIntegrator` (field initializers at
lines 65–72: everything 0, fresh filter). -/
def VelocityIntegrator.init : VelocityIntegrator :=
  ⟨0, 0, ButterworthLowPass.init, 0⟩

/-- `VelocityIntegrator.update` from `src/src/utils/math.ts` lines 74–98:
gravity-compensates the raw z sample, filters it, then runs the ZUPT /
trapezoidal-integration step; returns the updated state and the velocity
the method returns. -/
def VelocityIntegrator.update (s : VelocityIntegrator) (rawZ : ℚ) (q : Quat) :
    VelocityIntegrator × ℚ :=
  let linearA := getLinearAccelerationBaseZ ⟨0, 0, rawZ⟩ q
  let fp := s.filt.filter linearA
  let zs := zuptStep fp.2 ⟨s.currentVelocity, s.prevAccel, s.zuptCounter⟩
  (⟨zs.currentVelocity, zs.prevAccel, fp.1, zs.zuptCounter⟩, zs.currentVelocity)

/-- `VelocityIntegrator.reset` from `src/src/utils/math.ts` lines 100–104:
zeroes velocity, previous acceleration and the zero-run counter. The
filter instance is not touched. -/
def VelocityIntegrator.reset (s : VelocityIntegrator) : VelocityIntegrator :=
  { s with currentVelocity := 0, prevAccel := 0, zuptCounter := 0 }

/-- The identity quaternion (no rotation). -/
def qIdentity : Quat := ⟨1, 0, 0, 0⟩

/-- The velocity-drop computation of the `App` component,
`src/unnamed/part_000` lines 20–26: starts at 0 and is assigned
`max(0, (best − peak)/best · 100)` only when both the peak and the
reference are strictly positive. -/
def velocityDropPercent (peakVelocity bestSetVelocity : ℚ) : ℚ :=
  if 0 < peakVelocity ∧ 0 < bestSetVelocity then
    max 0 ((bestSetVelocity - peakVelocity) / bestSetVelocity * 100)
  else 0

/-- One `setPeakVelocity` update from `src/unnamed/part_001`
(`handleCharacteristicValueChanged`): `currentVel > prev ? currentVel :
prev`, on the signed velocity. -/
def peakStep (prev currentVel : ℚ) : ℚ :=
  if currentVel > prev then currentVel else prev

/-- The exposed peak velocity after a sequence of velocity samples,
starting from the initial value 0 (`useState(0)`; `resetPeak` also sets
it back to 0). -/
def peakOverList (vs : List ℚ) : ℚ :=
  vs.foldl peakStep 0

/-- Modelled from the spec: "running maximum of `|velocity|` seen since
the last explicit reset", seeded at 0 — the value C7 claims the code
computes. -/
def runMaxAbs (vs : List ℚ) : ℚ :=
  vs.foldl (fun p v => max p |v|) 0

/-- `Repetition` from `src/src/store/useWorkoutStore.ts`. -/
structure Repetition where
  id : String
  repNumber : Nat
  peakVelocity : ℚ
  meanVelocity : Option ℚ
deriving DecidableEq

/-- `ExerciseSet` from `src/src/store/useWorkoutStore.ts`. -/
structure ExerciseSet where
  id : String
  exerciseName : String
  weightKg : ℚ
  targetReps : ℚ
  reps : List Repetition
deriving DecidableEq

/-- `WorkoutSession` from `src/src/store/useWorkoutStore.ts`. -/
structure WorkoutSession where
  id : String
  timestamp : Int
  notes : String
  sets : List ExerciseSet
deriving DecidableEq

/-- The zustand store state of `useWorkoutStore`. -/
structure WorkoutStore where
  sessions : List WorkoutSession
  activeSessionId : Option String
  activeSetId : Option String
deriving DecidableEq

/-- JavaScript falsiness of a `string | null` value (the `!x` guards in
the store): `null` and the empty string are falsy. -/
def jsFalsy : Option String → Bool
  | none => true
  | some s => s == ""

/-- `startSet` from `src/src/store/useWorkoutStore.ts` lines 60–80; the
fresh UUID is passed in as `newId`. Returns the state unchanged when no
session is active; otherwise appends an empty set to the active session
and makes it the active set. -/
def startSet (st : WorkoutStore) (newId exerciseName : String)
    (weightKg targetReps : ℚ) : WorkoutStore :=
  if jsFalsy st.activeSessionId then st
  else
    { st with
      sessions := st.sessions.map fun s =>
        if some s.id = st.activeSessionId then
          { s with sets := s.sets ++ [⟨newId, exerciseName, weightKg, targetReps, []⟩] }
        else s,
      activeSetId := some newId }

/-- `addRep` from `src/src/store/useWorkoutStore.ts` lines 84–109; the
fresh UUID is passed in as `newId`. Returns the state unchanged when no
session or no set is active; otherwise appends the rep to the active set
of the active session. -/
def addRep (st : WorkoutStore) (newId : String) (peakVelocity : ℚ)
    (meanVelocity : Option ℚ) : WorkoutStore :=
  if jsFalsy st.activeSessionId || jsFalsy st.activeSetId then st
  else
    { st with
      sessions := st.sessions.map fun s =>
        if some s.id = st.activeSessionId then
          { s with
            sets := s.sets.map fun exSet =>
              if some exSet.id = st.activeSetId then
                { exSet with
                  reps := exSet.reps ++
                    [⟨newId, exSet.reps.length + 1, peakVelocity, meanVelocity⟩] }
              else exSet }
        else s }

/-- Helper: any state fixed by the 20 Hz filter step under constant input
`c` outputs `dcOut20 c`; the steady state under constant input is unique. -/
theorem butter20_fixed_output (c : ℚ) (s : ButterworthLowPass)
    (h : (ButterworthLowPass.filter s c).1 = s) : s.yv4 = dcOut20 c := by
  obtain ⟨a0, a1, a2, a3, a4, b0, b1, b2, b3, b4⟩ := s
  simp only [ButterworthLowPass.filter, ButterworthLowPass.mk.injEq] at h
  obtain ⟨e1, e2, e3, e4, e5, f1, f2, f3, f4, f5⟩ := h
  show b4 = dcOut20 c
  rw [dcOut20]
  have ha4 : a4 = c / 3.4142 := e5.symm
  have ha3 : a3 = c / 3.4142 := by rw [← e4, ha4]
  have ha2 : a2 = c / 3.4142 := by rw [← e3, ha3]
  have ha1 : a1 = c / 3.4142 := by rw [← e2, ha2]
  have hb3 : b3 = b4 := f4.symm
  have hb2 : b2 = b4 := by rw [← f3, hb3]
  have hb1 : b1 = b4 := by rw [← f2, hb2]
  rw [ha1, ha2, ha3, ha4, hb1, hb2, hb3] at f5
  norm_num at f5 ⊢
  field_simp at f5 ⊢
  linarith

/-- Helper: the same for the 200 Hz filter step. -/
theorem butter200_fixed_output (c : ℚ) (s : ButterworthLowPass)
    (h : (butterworthFilter200 s c).1 = s) : s.yv4 = dcOut200 c := by
  obtain ⟨a0, a1, a2, a3, a4, b0, b1, b2, b3, b4⟩ := s
  simp only [butterworthFilter200, ButterworthLowPass.mk.injEq] at h
  obtain ⟨e1, e2, e3, e4, e5, f1, f2, f3, f4, f5⟩ := h
  show b4 = dcOut200 c
  rw [dcOut200]
  have ha4 : a4 = c / 1445.41 := e5.symm
  have ha3 : a3 = c / 1445.41 := by rw [← e4, ha4]
  have ha2 : a2 = c / 1445.41 := by rw [← e3, ha3]
  have ha1 : a1 = c / 1445.41 := by rw [← e2, ha2]
  have hb3 : b3 = b4 := f4.symm
  have hb2 : b2 = b4 := by rw [← f3, hb3]
  have hb1 : b1 = b4 := by rw [← f2, hb2]
  rw [ha1, ha2, ha3, ha4, hb1, hb2, hb3] at f5
  norm_num at f5 ⊢
  field_simp at f5 ⊢
  linarith

/-- C8: the gravity compensator returns
`rawAccel.z − (q0² − q1² − q2² + q3²) * 9.81` for every input (it is a pure
function of its two arguments), and at the identity quaternion `(1,0,0,0)`
with raw `z = 9.81` it returns exactly 0. -/
theorem spec_c8_gravity_compensation (rawAccel : AccelSample) (q : Quat) :
    getLinearAccelerationBaseZ rawAccel q =
      rawAccel.z - (q.q0 ^ 2 - q.q1 ^ 2 - q.q2 ^ 2 + q.q3 ^ 2) * 9.81 ∧
    getLinearAccelerationBaseZ ⟨0, 0, 9.81⟩ ⟨1, 0, 0, 0⟩ = 0 := by
  constructor
  · show rawAccel.z - (q.q0 * q.q0 - q.q1 * q.q1 - q.q2 * q.q2 + q.q3 * q.q3) * 9.81 = _
    ring
  · norm_num [getLinearAccelerationBaseZ]

/-- C9: a buffer shorter than 11 bytes or with a wrong sync byte makes both
decoders return none; a wrong frame-type byte makes the corresponding
decoder return none. The decoders are pure functions of the buffer. -/
theorem spec_c9_decoder_rejects (buffer : List Nat) :
    ((buffer.length < 11 ∨ byteAt buffer 0 ≠ 0x55) →
      parseAcceleration buffer = none ∧ parseQuaternion buffer = none) ∧
    (byteAt buffer 1 ≠ 0x51 → parseAcceleration buffer = none) ∧
    (byteAt buffer 1 ≠ 0x59 → parseQuaternion buffer = none) := by
  refine ⟨fun h => ⟨?_, ?_⟩, fun h => ?_, fun h => ?_⟩
  · unfold parseAcceleration
    rcases h with h | h
    · exact if_pos (Or.inl h)
    · exact if_pos (Or.inr (Or.inl h))
  · unfold parseQuaternion
    rcases h with h | h
    · exact if_pos (Or.inl h)
    · exact if_pos (Or.inr (Or.inl h))
  · exact if_pos (Or.inr (Or.inr h))
  · exact if_pos (Or.inr (Or.inr h))

/-- Witness for C9 at the concrete buffer `[0x54]` (too short and wrong
sync byte). -/
theorem spec_c9_decoder_rejects_witness :
    parseAcceleration [0x54] = none ∧ parseQuaternion [0x54] = none :=
  (spec_c9_decoder_rejects [0x54]).1 (Or.inl (by decide))

/-- C5: evaluating the decoder at a frame with raw x = 4096 yields
`(4096/32768) * 16 * 9.81 = 981/50 = 19.62`, which differs from the value
`(4096/32768) * 2 * 9.81` that the caller's configured 2 g fallback
requires: `parseAcceleration` ignores any caller-supplied full-scale
range and always scales by the hard-coded 16. -/
theorem spec_c5_full_scale_ignored :
    parseAcceleration c5Buffer = some ⟨981 / 50, 0, 0⟩ ∧
    (981 / 50 : ℚ) ≠ 4096 / 32768 * 2 * 9.81 := by
  constructor
  · have h2 : getInt16 c5Buffer 2 = 4096 := rfl
    have h4 : getInt16 c5Buffer 4 = 0 := rfl
    have h6 : getInt16 c5Buffer 6 = 0 := rfl
    unfold parseAcceleration
    rw [if_neg (by decide)]
    rw [h2, h4, h6]
    simp only [Option.some.injEq, AccelSample.mk.injEq]
    norm_num
  · norm_num

/-- C4: under constant input 1, the steady state of each filter variant is
fixed by the step function, yet its output is not 1 — the 20 Hz set holds
at `dcOut20 1 ≈ 4.0000159` and the 200 Hz set at `dcOut200 1 ≈ 1.2795`,
so the DC gain of neither coefficient set is 1. -/
theorem spec_c4_dc_gain_not_one :
    ButterworthLowPass.filter (dcState20 1) 1 = (dcState20 1, dcOut20 1) ∧
    dcOut20 1 ≠ 1 ∧
    butterworthFilter200 (dcState200 1) 1 = (dcState200 1, dcOut200 1) ∧
    dcOut200 1 ≠ 1 := by
  refine ⟨?_, by norm_num [dcOut20], ?_, by norm_num [dcOut200]⟩
  · simp only [ButterworthLowPass.filter, dcState20, Prod.mk.injEq,
      ButterworthLowPass.mk.injEq]
    norm_num [dcOut20]
  · simp only [butterworthFilter200, dcState200, Prod.mk.injEq,
      ButterworthLowPass.mk.injEq]
    norm_num [dcOut200]

/-- Helper: a sub-threshold sample increments the zero-run counter. -/
theorem zuptStep_counter_sub (a : ℚ) (s : IntState) (h : |a| < zuptThreshold) :
    (zuptStep a s).zuptCounter = s.zuptCounter + 1 := by
  simp [zuptStep, zuptCounterStep, h]

/-- Helper: a sub-threshold sample that brings the counter to
`zuptMaxFrames` or beyond forces the velocity to exactly 0. -/
theorem zuptStep_locked (a : ℚ) (s : IntState) (h : |a| < zuptThreshold)
    (hc : zuptMaxFrames ≤ s.zuptCounter + 1) :
    (zuptStep a s).currentVelocity = 0 := by
  have h2 : ¬ (s.zuptCounter + 1 < zuptMaxFrames) := by omega
  simp [zuptStep, zuptCounterStep, h, hc, h2]

/-- Helper: a sample at or above the threshold resets the counter to 0 and
integrates by the trapezoidal rule. -/
theorem zuptStep_active (a : ℚ) (s : IntState) (h : zuptThreshold ≤ |a|) :
    (zuptStep a s).zuptCounter = 0 ∧
    (zuptStep a s).currentVelocity =
      s.currentVelocity + (a + s.prevAccel) / 2 * dt := by
  have h1 : ¬ |a| < zuptThreshold := not_lt.mpr h
  constructor
  · simp [zuptStep, zuptCounterStep, h1]
  · simp [zuptStep, zuptCounterStep, h1, zuptMaxFrames]

/-- Helper: `zuptStep` always stores the sample as `prevAccel`. -/
theorem zuptStep_prevAccel (a : ℚ) (s : IntState) :
    (zuptStep a s).prevAccel = a := rfl

/-- Helper: processing a nonempty all-sub-threshold run whose length pushes
the counter to `zuptMaxFrames` or beyond ends with velocity exactly 0 and
the counter grown by the run length. -/
theorem processRun_zero :
    ∀ (L : List ℚ) (s : IntState), L ≠ [] →
      (∀ a ∈ L, |a| < zuptThreshold) →
      zuptMaxFrames ≤ s.zuptCounter + L.length →
      (processRun L s).currentVelocity = 0 ∧
      (processRun L s).zuptCounter = s.zuptCounter + L.length := by
  intro L
  induction L with
  | nil => intro s hne _ _; exact absurd rfl hne
  | cons a T ih =>
    intro s _ hsub hlen
    have ha : |a| < zuptThreshold := hsub a (List.mem_cons_self a T)
    have hstep : processRun (a :: T) s = processRun T (zuptStep a s) := rfl
    have hc' : (zuptStep a s).zuptCounter = s.zuptCounter + 1 :=
      zuptStep_counter_sub a s ha
    rcases eq_or_ne T [] with hT | hT
    · subst hT
      have hc : zuptMaxFrames ≤ s.zuptCounter + 1 := by
        simpa using hlen
      exact ⟨zuptStep_locked a s ha hc, by rw [hstep]; simpa using hc'⟩
    · have hrec := ih (zuptStep a s) hT
        (fun b hb => hsub b (List.mem_cons_of_mem a hb))
        (by rw [hc']; simp only [List.length_cons] at hlen; omega)
      rw [hstep]
      refine ⟨hrec.1, ?_⟩
      rw [hrec.2, hc']
      simp only [List.length_cons]
      omega

/-- Helper: integrating a constant super-threshold acceleration `a` from a
fresh state for `n ≥ 1` steps gives exactly `a·n·dt − a·dt/2` (trapezoidal
rule with the first-step asymmetry), the counter staying 0. -/
theorem zuptIter_const (a : ℚ) (h : zuptThreshold ≤ |a|) :
    ∀ n : Nat, 1 ≤ n →
      (zuptIter a n).currentVelocity = a * n * dt - a * dt / 2 ∧
      (zuptIter a n).prevAccel = a ∧
      (zuptIter a n).zuptCounter = 0 := by
  intro n
  induction n with
  | zero => intro h0; exact absurd h0 (by norm_num)
  | succ m ih =>
    intro _
    rcases Nat.eq_zero_or_pos m with hm | hm
    · subst hm
      have hstep := zuptStep_active a IntState.init h
      refine ⟨?_, zuptStep_prevAccel a IntState.init, hstep.1⟩
      rw [show zuptIter a 1 = zuptStep a IntState.init from rfl, hstep.2]
      show (0 : ℚ) + (a + 0) / 2 * dt = a * ((1 : ℕ) : ℚ) * dt - a * dt / 2
      push_cast
      ring
    · have ihm := ih hm
      have hstep := zuptStep_active a (zuptIter a m) h
      refine ⟨?_, zuptStep_prevAccel a (zuptIter a m), hstep.1⟩
      show (zuptStep a (zuptIter a m)).currentVelocity = _
      rw [hstep.2, ihm.1, ihm.2.1]
      push_cast
      ring

/-- C1: starting a sub-threshold run with the zero-run counter at 0, once
the run length reaches `zuptMaxFrames` the velocity is exactly 0 and
remains exactly 0 for every further sub-threshold sample (the counter
keeps growing with the run); the first sample at or above the threshold
then resets the counter to 0 and integration resumes from velocity 0. -/
theorem spec_c1_zupt_lock (s : IntState) (L : List ℚ) (b : ℚ)
    (hstart : s.zuptCounter = 0)
    (hsub : ∀ a ∈ L, |a| < zuptThreshold)
    (hlen : zuptMaxFrames ≤ L.length) :
    ((processRun L s).currentVelocity = 0 ∧
      (processRun L s).zuptCounter = L.length) ∧
    (zuptThreshold ≤ |b| →
      (zuptStep b (processRun L s)).zuptCounter = 0 ∧
      (zuptStep b (processRun L s)).currentVelocity =
        0 + (b + (processRun L s).prevAccel) / 2 * dt) := by
  have hne : L ≠ [] := by
    intro hL
    rw [hL] at hlen
    simp [zuptMaxFrames] at hlen
  have hrun := processRun_zero L s hne hsub (by rw [hstart]; omega)
  have hrun' : (processRun L s).zuptCounter = L.length := by
    rw [hrun.2, hstart]
    omega
  refine ⟨⟨hrun.1, hrun'⟩, fun hb => ?_⟩
  have hact := zuptStep_active b (processRun L s) hb
  exact ⟨hact.1, by rw [hact.2, hrun.1]⟩

/-- Witness for C1: four zero samples from a fresh state lock the velocity
at 0 with the counter at 4; a following sample of 1 m/s² resets the
counter and resumes integration from 0. -/
theorem spec_c1_zupt_lock_witness :
    ((processRun [0, 0, 0, 0] IntState.init).currentVelocity = 0 ∧
      (processRun [0, 0, 0, 0] IntState.init).zuptCounter = 4) ∧
    ((zuptStep 1 (processRun [0, 0, 0, 0] IntState.init)).zuptCounter = 0 ∧
      (zuptStep 1 (processRun [0, 0, 0, 0] IntState.init)).currentVelocity =
        0 + (1 + (processRun [0, 0, 0, 0] IntState.init).prevAccel) / 2 * dt) := by
  have h := spec_c1_zupt_lock IntState.init [0, 0, 0, 0] 1 rfl
    (by
      intro a ha
      simp only [List.mem_cons, List.not_mem_nil, or_false] at ha
      rcases ha with ha | ha | ha | ha <;>
        rw [ha] <;> norm_num [zuptThreshold])
    (by norm_num [zuptMaxFrames])
  exact ⟨⟨h.1.1, h.1.2⟩, h.2 (by norm_num [zuptThreshold])⟩

/-- C2: whenever the just-updated counter is still below `zuptMaxFrames`,
one step adds exactly `(a + prevAccel)/2 · dt` to the velocity, and the
sample is stored as `prevAccel` in every branch; consequently `n ≥ 1`
steps of a constant super-threshold acceleration `a` from a fresh state
give velocity exactly `a·n·dt − a·dt/2`. -/
theorem spec_c2_trapezoid (a : ℚ) (s : IntState) (n : Nat) :
    ((zuptCounterStep a s.zuptCounter < zuptMaxFrames →
        (zuptStep a s).currentVelocity =
          s.currentVelocity + (a + s.prevAccel) / 2 * dt) ∧
      (zuptStep a s).prevAccel = a) ∧
    (zuptThreshold ≤ |a| → 1 ≤ n →
      (zuptIter a n).currentVelocity = a * n * dt - a * dt / 2) := by
  refine ⟨⟨fun hcnt => ?_, zuptStep_prevAccel a s⟩,
    fun h hn => (zuptIter_const a h n hn).1⟩
  simp [zuptStep, hcnt, not_le.mpr hcnt]

/-- Witness for C2 at `a = 1`, state `(2, 3, 0)`, `n = 2`. -/
theorem spec_c2_trapezoid_witness :
    (zuptStep 1 ⟨2, 3, 0⟩).currentVelocity = 2 + (1 + 3) / 2 * dt ∧
    (zuptStep 1 ⟨2, 3, 0⟩).prevAccel = 1 ∧
    (zuptIter 1 2).currentVelocity = 1 * ((2 : ℕ) : ℚ) * dt - 1 * dt / 2 := by
  have h := spec_c2_trapezoid 1 ⟨2, 3, 0⟩ 2
  exact ⟨h.1.1 (by norm_num [zuptCounterStep, zuptThreshold, zuptMaxFrames]),
    h.1.2,
    h.2 (by norm_num [zuptThreshold]) (by norm_num)⟩

/-- C3 counterexample: run one update (raw z = 10, identity orientation)
on a fresh integrator, call `reset`, then feed raw z = 0; the returned
velocity differs from what a brand-new integrator returns for the same
raw z = 0 input, because `reset` leaves the filter history behind. -/
theorem spec_c3_reset_not_fresh :
    (VelocityIntegrator.update
        (VelocityIntegrator.reset
          (VelocityIntegrator.update VelocityIntegrator.init 10 qIdentity).1)
        0 qIdentity).2 ≠
      (VelocityIntegrator.update VelocityIntegrator.init 0 qIdentity).2 := by
  norm_num [VelocityIntegrator.update, VelocityIntegrator.reset,
    VelocityIntegrator.init, ButterworthLowPass.filter, ButterworthLowPass.init,
    getLinearAccelerationBaseZ, zuptStep, zuptCounterStep, zuptThreshold,
    zuptMaxFrames, dt, qIdentity, abs_lt]

/-- C3 amended: `reset` restores velocity, previous acceleration and the
zero-run counter to their initial values but keeps the filter history;
the result coincides with a freshly constructed integrator exactly when
the filter history was still in its initial (all-zero) state. -/
theorem spec_c3_reset_amended (s : VelocityIntegrator) :
    VelocityIntegrator.reset s = ⟨0, 0, s.filt, 0⟩ ∧
    (s.filt = ButterworthLowPass.init →
      VelocityIntegrator.reset s = VelocityIntegrator.init) := by
  refine ⟨rfl, fun hf => ?_⟩
  simp [VelocityIntegrator.reset, VelocityIntegrator.init, hf]

/-- Witness for the amended C3 at a concrete state with a fresh filter. -/
theorem spec_c3_reset_amended_witness :
    VelocityIntegrator.reset ⟨5, 3, ButterworthLowPass.init, 2⟩ =
      VelocityIntegrator.init :=
  (spec_c3_reset_amended ⟨5, 3, ButterworthLowPass.init, 2⟩).2 rfl

/-- C6 counterexample: with peak velocity 0 and reference 1 the code
computes 0, while the claimed formula `max(0, (ref − peak)/ref · 100)`
gives 100. -/
theorem spec_c6_drop_zero_peak :
    velocityDropPercent 0 1 = 0 ∧
    max 0 ((1 - 0) / 1 * 100 : ℚ) = 100 ∧ (0 : ℚ) ≠ 100 := by
  refine ⟨?_, ?_, by norm_num⟩
  · norm_num [velocityDropPercent]
  · rw [max_eq_right] <;> norm_num

/-- C6 amended: the formula `max(0, (ref − peak)/ref · 100)` holds
whenever both peak and reference are strictly positive; the drop is 0
when the peak is not positive (in particular at peak = 0, not 100), and
0 whenever `peak ≥ reference > 0`. -/
theorem spec_c6_drop_formula (peakVelocity bestSetVelocity : ℚ) :
    (0 < peakVelocity → 0 < bestSetVelocity →
      velocityDropPercent peakVelocity bestSetVelocity =
        max 0 ((bestSetVelocity - peakVelocity) / bestSetVelocity * 100)) ∧
    (peakVelocity ≤ 0 → velocityDropPercent peakVelocity bestSetVelocity = 0) ∧
    (0 < peakVelocity → 0 < bestSetVelocity → bestSetVelocity ≤ peakVelocity →
      velocityDropPercent peakVelocity bestSetVelocity = 0) := by
  refine ⟨fun h1 h2 => ?_, fun h => ?_, fun h1 h2 h3 => ?_⟩
  · rw [velocityDropPercent, if_pos ⟨h1, h2⟩]
  · rw [velocityDropPercent, if_neg]
    rintro ⟨hp, _⟩
    linarith
  · rw [velocityDropPercent, if_pos ⟨h1, h2⟩]
    have h4 : (bestSetVelocity - peakVelocity) / bestSetVelocity ≤ 0 :=
      div_nonpos_of_nonpos_of_nonneg (by linarith) h2.le
    exact max_eq_left (by nlinarith)

/-- Witness for the amended C6 at peaks 1/2, −1 and 2 against reference 1. -/
theorem spec_c6_drop_formula_witness :
    velocityDropPercent (1 / 2) 1 = 50 ∧
    velocityDropPercent (-1) 1 = 0 ∧
    velocityDropPercent 2 1 = 0 := by
  refine ⟨?_, ?_, ?_⟩
  · rw [(spec_c6_drop_formula (1 / 2) 1).1 (by norm_num) (by norm_num)]
    rw [max_eq_right] <;> norm_num
  · exact (spec_c6_drop_formula (-1) 1).2.1 (by norm_num)
  · exact (spec_c6_drop_formula 2 1).2.2 (by norm_num) (by norm_num) (by norm_num)

/-- C7 counterexample: for the velocity sequence `[−2]` the code's peak is
0 (the update compares the signed velocity against the running value),
while the running maximum of `|velocity|` is 2. -/
theorem spec_c7_peak_not_abs :
    peakOverList [-2] = 0 ∧ runMaxAbs [-2] = 2 ∧ (0 : ℚ) ≠ 2 := by
  refine ⟨?_, ?_, by norm_num⟩
  · show peakStep 0 (-2) = 0
    rw [peakStep, if_neg]
    norm_num
  · show max 0 |(-2 : ℚ)| = 2
    rw [show |(-2 : ℚ)| = 2 by rw [abs_of_nonpos] <;> norm_num]
    rw [max_eq_right]
    norm_num

/-- Helper: the conditional in `setPeakVelocity` is the binary max. -/
theorem peakStep_eq_max (p v : ℚ) : peakStep p v = max p v := by
  rw [peakStep]
  rcases le_or_lt v p with h | h
  · rw [if_neg (not_lt.mpr h), max_eq_left h]
  · rw [if_pos h, max_eq_right h.le]

/-- Helper: folding `peakStep` is folding `max`. -/
theorem foldl_peakStep_max (vs : List ℚ) :
    ∀ p : ℚ, vs.foldl peakStep p = vs.foldl max p := by
  induction vs with
  | nil => intro p; rfl
  | cons v T ih =>
    intro p
    simp only [List.foldl_cons]
    rw [peakStep_eq_max]
    exact ih _

/-- Helper: on nonnegative samples, folding `peakStep` agrees with folding
`max` of absolute values. -/
theorem foldl_peakStep_abs (vs : List ℚ) :
    ∀ p : ℚ, (∀ v ∈ vs, 0 ≤ v) →
      vs.foldl peakStep p = vs.foldl (fun q v => max q |v|) p := by
  induction vs with
  | nil => intro p _; rfl
  | cons v T ih =>
    intro p hnn
    simp only [List.foldl_cons]
    have hv : max p |v| = peakStep p v := by
      rw [peakStep_eq_max, abs_of_nonneg (hnn v (List.mem_cons_self v T))]
    rw [hv]
    exact ih _ (fun w hw => hnn w (List.mem_cons_of_mem v hw))

/-- C7 amended: the exposed peak equals the running maximum of the signed
velocities seeded with 0 (so negative velocities are ignored, clamping at
0); it coincides with the running maximum of `|velocity|` when all
samples are nonnegative. -/
theorem spec_c7_peak_amended (vs : List ℚ) :
    peakOverList vs = vs.foldl max 0 ∧
    ((∀ v ∈ vs, 0 ≤ v) → peakOverList vs = runMaxAbs vs) := by
  exact ⟨foldl_peakStep_max vs 0, fun hnn => foldl_peakStep_abs vs 0 hnn⟩

/-- Witness for the amended C7 on the nonnegative sequence `[1, 3, 2]`. -/
theorem spec_c7_peak_amended_witness :
    peakOverList [1, 3, 2] = List.foldl max 0 [1, 3, 2] ∧
    peakOverList [1, 3, 2] = runMaxAbs [1, 3, 2] := by
  have h := spec_c7_peak_amended [1, 3, 2]
  refine ⟨h.1, h.2 ?_⟩
  intro v hv
  simp only [List.mem_cons, List.not_mem_nil, or_false] at hv
  rcases hv with h1 | h1 | h1 <;> rw [h1] <;> norm_num

/-- C10: when no session is active (or, for `addRep`, no set is active),
`addRep` and `startSet` return the store state unchanged — nothing is
appended and no field is modified. -/
theorem spec_c10_no_active_no_mutation (st : WorkoutStore)
    (newId exerciseName : String) (weightKg targetReps peakVelocity : ℚ)
    (meanVelocity : Option ℚ) :
    ((st.activeSessionId = none ∨ st.activeSetId = none) →
      addRep st newId peakVelocity meanVelocity = st) ∧
    (st.activeSessionId = none →
      startSet st newId exerciseName weightKg targetReps = st) := by
  constructor
  · intro h
    rcases h with h | h <;> simp [addRep, jsFalsy, h]
  · intro h
    simp [startSet, jsFalsy, h]

/-- Witness for C10 at the empty store with no active session or set. -/
theorem spec_c10_no_active_no_mutation_witness :
    addRep ⟨[], none, none⟩ "r1" 1 none = ⟨[], none, none⟩ ∧
    startSet ⟨[], none, none⟩ "s1" "Squat" 100 5 = ⟨[], none, none⟩ := by
  have h := spec_c10_no_active_no_mutation ⟨[], none, none⟩ "r1" "Squat" 100 5 1 none
  exact ⟨h.1 (Or.inl rfl), h.2 rfl⟩
